import Mathlib

/-!
Verification of the quiz-bank XML parser (`fixed_quiz_parser.py`).

This file gives a shallow embedding of `parse_quiz_xml_to_dataframe` and
`enhance_quiz_dataframe` and proves/refutes the specification claims about
them.

Modelling conventions:

* An XML element (as produced by `lxml.etree` after parsing) is modelled by
  `Element`: its tag name, its attribute list, the list of its direct text
  nodes (what the XPath step `text()` returns), the serialized inner markup
  between its open and close tags (what
  `re.search(r"<tag...>(.*?)</tag>", etree.tostring(el, method='html'))`
  group 1 yields; for a normal element node the regex always matches the
  serialized form, so the `itertext`/child-serialization fallbacks of the
  source are not reachable on this representation), and its child elements
  in document order.
* The `lxml` parsing stage itself (`etree.fromstring` with `recover=True`)
  is an external library call; the embedded pipeline therefore takes the
  outcome of that stage as input: `none` when the parser raised (which it
  does, with `XMLSyntaxError: Document is empty`, for empty input even in
  recovery mode) and `some root` when a tree was produced.  Everything the
  Python function does after `etree.fromstring` is embedded faithfully.
* A pandas DataFrame is modelled by a column-name list plus rows of
  (column, value) cells; `answerIndex`/`pd.NA`/list cells are modelled by
  the `Value` type.  `DataFrame.empty` in pandas is true when ANY axis has
  length zero, and the embedding of the `df.empty` test mirrors that.
* `print` diagnostics are modelled by the `Diag` type; each constructor
  carries exactly the data that is interpolated into the corresponding
  message in the source.
* Python string primitives used by the source (`.upper()`, `.lower()`,
  `.strip()`, slicing `[:70]`, `startswith`, regex containment/anchored
  match and trailing-digit search) are re-implemented below on `List Char`
  so that all definitions are executable and kernel-reducible.
-/

/-- Python `s.upper()` (ASCII, which is all the parser compares). -/
def myToUpper (s : String) : String := String.mk (s.toList.map Char.toUpper)

/-- Python `s.lower()` (ASCII, which is all the parser compares). -/
def myToLower (s : String) : String := String.mk (s.toList.map Char.toLower)

/-- Whitespace-trimming on character lists, used to model Python `str.strip()`. -/
def trimChars (l : List Char) : List Char :=
  ((l.dropWhile Char.isWhitespace).reverse.dropWhile Char.isWhitespace).reverse

/-- Python `s.strip()`. -/
def myTrim (s : String) : String := String.mk (trimChars s.toList)

/-- Python slicing `s[:n]`. -/
def strTake (n : Nat) (s : String) : String := String.mk (s.toList.take n)

/-- Does the first list start with the second one (character-exact)? -/
def startsWithL : List Char → List Char → Bool
  | _, [] => true
  | [], _ :: _ => false
  | h :: hs, p :: ps => (h == p) && startsWithL hs ps

/-- Substring search on character lists. -/
def containsLAux (hay pat : List Char) : Bool :=
  match hay with
  | [] => startsWithL [] pat
  | _ :: t => startsWithL hay pat || containsLAux t pat

/-- Case-insensitive containment of an (uppercase) pattern in `s`; this is the
EXSLT `re:match(local-name(), pat, "i")` unanchored regex test used by the
source for plain-name patterns such as `OPTION3`, `TOPIC`, `TAG`. -/
def containsCI (s pat : String) : Bool := containsLAux (myToUpper s).toList pat.toList

/-- Python `s.startswith(pre)` / XPath `starts-with` (case-sensitive). -/
def strStartsWith (s pre : String) : Bool := startsWithL s.toList pre.toList

/-- The maximal run of decimal digits at the end of a character list. -/
def trailingDigits (l : List Char) : List Char := (l.reverse.takeWhile Char.isDigit).reverse

/-- Numeric value of a digit list (most significant first). -/
def digitsVal (l : List Char) : Nat := l.foldl (fun a c => a * 10 + (c.toNat - 48)) 0

/-- Python `re.search(r"(\d+)$", s)` followed by `int(...)`: the trailing
digit run of `s` as a number, or `none` when `s` does not end in a digit. -/
def trailingNat (s : String) : Option Nat :=
  let d := trailingDigits s.toList
  if d.isEmpty then none else some (digitsVal d)

/-- First-match association lookup on string-keyed pairs (Python `dict.get` /
`Element.get` on the unique attribute names of one element). -/
def lookupStr {α : Type} : List (String × α) → String → Option α
  | [], _ => none
  | (k, v) :: r, key => if k = key then some v else lookupStr r key

/-- First-match association lookup on `Nat`-keyed pairs (Python `dict.get`
for the index-keyed enhancement mappings). -/
def lookupNat {α : Type} : List (Nat × α) → Nat → Option α
  | [], _ => none
  | (k, v) :: r, key => if k = key then some v else lookupNat r key

/-- Ordered insertion for the Boolean relation `le`, used to model Python
`sorted`. -/
def insertLe {α : Type} (le : α → α → Bool) (a : α) : List α → List α
  | [] => [a]
  | b :: bs => if le a b then a :: b :: bs else b :: insertLe le a bs

/-- Insertion sort by the Boolean relation `le` (Python `sorted`). -/
def sortLe {α : Type} (le : α → α → Bool) (l : List α) : List α := l.foldr (insertLe le) []

/-- Code-point comparison of strings, Python's `<=` on `str`. -/
def charListLe : List Char → List Char → Bool
  | [], _ => true
  | _ :: _, [] => false
  | a :: as, b :: bs => if a.toNat < b.toNat then true
      else if b.toNat < a.toNat then false else charListLe as bs

/-- Python `sorted` on strings. -/
def sortStrings (l : List String) : List String :=
  sortLe (fun a b => charListLe a.toList b.toList) l

/-- Python `sorted` on natural numbers. -/
def sortNats (l : List Nat) : List Nat := sortLe (fun a b => a ≤ b) l

/-- Remove duplicates, keeping one occurrence of each value (models going
through a Python `set`; the parser only ever sorts the result, so which
occurrence survives is irrelevant). -/
def dedupNats : List Nat → List Nat
  | [] => []
  | n :: ns => if (dedupNats ns).contains n then dedupNats ns else n :: dedupNats ns

/-- An XML element of the parsed tree, see the module docstring for the role
of each field. -/
inductive Element where
  | mk (tag : String) (attrs : List (String × String)) (textNodes : List String)
       (inner : String) (children : List Element)

/-- Tag name of an element (`el.tag` / XPath `local-name()`). -/
def Element.tag : Element → String
  | .mk t _ _ _ _ => t

/-- Attribute list of an element. -/
def Element.attrs : Element → List (String × String)
  | .mk _ a _ _ _ => a

/-- The direct text nodes of an element, in document order (XPath `text()`). -/
def Element.textNodes : Element → List String
  | .mk _ _ tx _ _ => tx

/-- The serialized markup strictly between the element's open and close tags. -/
def Element.inner : Element → String
  | .mk _ _ _ i _ => i

/-- Child elements in document order (XPath `./*`). -/
def Element.children : Element → List Element
  | .mk _ _ _ _ cs => cs

/-- Model of `el.get(name, default)`. -/
def Element.attr (e : Element) (name : String) : Option String := lookupStr e.attrs name

mutual

/-- All proper descendants of an element in document order (XPath `.//*`). -/
def descendants : Element → List Element
  | .mk _ _ _ _ cs => descList cs

/-- Descendant collection over a forest. -/
def descList : List Element → List Element
  | [] => []
  | c :: cs => c :: (descendants c ++ descList cs)

end

/-- One diagnostic line printed by the parser; each constructor carries the
data interpolated into the corresponding `print` call of the source. -/
inductive Diag where
  /-- Model of `Fatal XML parsing error: ...` followed by the early `return pd.DataFrame()`. -/
  | fatalParse
  /-- Model of `Warning: QUIZ_ITEM index {i} has no QUESTION element. Skipping.` -/
  | noQuestion (idx : Nat)
  /-- Model of `Error: Expected 5 options but found {n} for question '{snippet}...'.` -/
  | optionCount (found : Nat) (snippet : String)
  /-- Model of `Error: Found 5 tags starting with 'OPTION', but they are not exactly
  OPTION1-5 (found tags: {tags}, extracted numbers: {nums}) ...` -/
  | optionNames (tags : List String) (nums : List Nat) (snippet : String)
  /-- Model of `Warning: OPTION{i} ... is missing correct='...' attribute or it's not set ...` -/
  | correctAttrWarn (i : Nat) (snippet : String)
  /-- Model of `Error processing question '{snippet}...': {exception}` -/
  | unexpectedError (snippet : String)
  /-- Model of `Warning: No <QUIZ_ITEM> elements found in the XML content.` -/
  | noItemsFound
  /-- Model of `Warning: Input XML content was empty.` -/
  | emptyInput
  /-- Model of `Successfully parsed {n} questions.` -/
  | parsedSummary (n : Nat)
  /-- Model of `Skipped {k} questions due to errors ...` -/
  | skippedSummary (k : Nat)
deriving DecidableEq, Repr

/-- One accepted quiz record (one dict appended to `quiz_data`). -/
structure QuizRecord where
  text : String
  options : List String
  answerIndex : Nat
  topic : String
  tag : String
  chapter_no : String
  CHAPTER_TITLE : String
deriving DecidableEq, Repr

/-- Outcome of processing one `QUIZ_ITEM`: either an accepted record together
with the non-fatal warnings printed while building it, or a rejection with
the diagnostics printed on the skip path. -/
inductive ItemResult where
  | accepted (r : QuizRecord) (warns : List Diag)
  | rejected (ds : List Diag)
deriving DecidableEq, Repr

/-- Diagnostics printed while processing one item. -/
def resultDiags : ItemResult → List Diag
  | .accepted _ w => w
  | .rejected ds => ds

/-- The record produced by an item, if it was accepted. -/
def resultRecord? : ItemResult → Option QuizRecord
  | .accepted r _ => some r
  | .rejected _ => none

/-- Model of `item.find("./QUESTION")`: first direct child with the exact tag
`QUESTION` (this lookup in the source is case-sensitive). -/
def questionChild (item : Element) : Option Element :=
  (item.children.filter (fun c => c.tag == "QUESTION")).head?

/-- Whether the item has a `QUESTION` direct child. -/
def hasQuestion (item : Element) : Bool := (questionChild item).isSome

/-- The question body extracted from the `QUESTION` element: the serialized
inner markup, stripped. -/
def questionText (q : Element) : String := myTrim q.inner

/-- Model of `question[:70].strip()`: the snippet used in the item's diagnostics. -/
def qSnippet (q : Element) : String := myTrim (strTake 70 (questionText q))

/-- The snippet an item's diagnostics use, `""` when the item has no
question (that value is never used on the paths where it matters). -/
def snippetOf (item : Element) : String :=
  match questionChild item with
  | some q => qSnippet q
  | none => ""

/-- Model of `item.xpath('./*[starts-with(local-name(), "OPTION") or
starts-with(local-name(), "option")]')`: every direct child whose tag starts
with the exact prefix `OPTION` or the exact prefix `option` (NOT
case-insensitive: a mixed-case prefix such as `Option1` matches neither). -/
def allOptionTags (item : Element) : List Element :=
  item.children.filter (fun c => strStartsWith c.tag "OPTION" || strStartsWith c.tag "option")

/-- Model of `item.xpath('./*[re:match(local-name(), "^OPTION[1-5]$", "i")]')`: every
direct child whose tag is exactly `OPTION` followed by one digit `1`-`5`,
case-insensitively. -/
def strictOptions (item : Element) : List Element :=
  item.children.filter (fun c =>
    ["OPTION1", "OPTION2", "OPTION3", "OPTION4", "OPTION5"].contains (myToUpper c.tag))

/-- The `for opt_el in option_elements_found` loop of the source: extract the
trailing number of each tag, stopping (`valid_options_1_to_5 = False; break`)
at the first tag with no trailing digits.  Returns the flag together with the
numbers collected before the break. -/
def collectNums : List Element → Bool × List Nat
  | [] => (true, [])
  | e :: es =>
    match trailingNat e.tag with
    | none => (false, [])
    | some n =>
      let r := collectNums es
      (r.1, n :: r.2)

/-- Model of `option_numbers_found == {1, 2, 3, 4, 5}` as sets. -/
def numsExactly15 (ns : List Nat) : Bool :=
  ([1, 2, 3, 4, 5].all (fun n => ns.contains n)) && (ns.all (fun n => [1, 2, 3, 4, 5].contains n))

/-- The option-number name `OPTION{i}`. -/
def optName (i : Nat) : String := "OPTION" ++ toString i

/-- Model of `item.xpath('./*[re:match(local-name(), "OPTION{i}", "i")]')`: direct
children whose tag contains `OPTION{i}` case-insensitively, in document
order; the source takes element `[0]` of this list. -/
def optionMatches (item : Element) (i : Nat) : List Element :=
  item.children.filter (fun c => containsCI c.tag (optName i))

/-- Model of `str(option_element.get("correct", "")).lower()`. -/
def correctVal (opt : Element) : String := myToLower ((opt.attr "correct").getD "")

/-- The non-fatal `correct`-attribute check for option `i` (ordinal 1 must
carry `correct="true"`, ordinals 2-5 `correct="false"`, case-insensitively);
yields the warning diagnostic when the check fails. -/
def correctWarn (i : Nat) (opt : Element) (snippet : String) : List Diag :=
  if i = 1 then
    if correctVal opt ≠ "true" then [Diag.correctAttrWarn 1 snippet] else []
  else
    if correctVal opt ≠ "false" then [Diag.correctAttrWarn i snippet] else []

/-- The `for i in range(1, 6)` option-extraction loop over the remaining
ordinals `l`: for each ordinal, look up the first case-insensitive
`OPTION{i}` child, record its stripped inner markup, and run the
`correct`-attribute check.  A failed lookup models the `IndexError` of
`xpath(...)[0]` (caught by the per-item handler): the warnings already
printed are kept and no option list is produced. -/
def buildOptionsGo (item : Element) (snippet : String) : List Nat → List Diag × Option (List String)
  | [] => ([], some [])
  | i :: is =>
    match (optionMatches item i).head? with
    | none => ([], none)
    | some opt =>
      let w := correctWarn i opt snippet
      let r := buildOptionsGo item snippet is
      match r.2 with
      | none => (w ++ r.1, none)
      | some ts => (w ++ r.1, some (myTrim opt.inner :: ts))

/-- Model of `item.xpath('./*[re:match(local-name(), "TOPIC", "i")]/text()')` followed
by `"".join(...).strip() if topic_element else main_topic`: the text nodes of
every direct child whose tag contains `TOPIC` case-insensitively; empty
node-set means fall back to the bank's `topic` attribute. -/
def extractTopic (mainTopic : String) (item : Element) : String :=
  let texts := (item.children.filter (fun c => containsCI c.tag "TOPIC")).flatMap Element.textNodes
  if texts.isEmpty then mainTopic else myTrim (String.join texts)

/-- Same lookup for `TAG`, defaulting to the empty string. -/
def extractTag (item : Element) : String :=
  let texts := (item.children.filter (fun c => containsCI c.tag "TAG")).flatMap Element.textNodes
  if texts.isEmpty then "" else myTrim (String.join texts)

/-- The body of one iteration of the per-item loop, after the `QUESTION`
child `q` has been found: option-count validation, option-ordinal
validation, option extraction with the non-fatal attribute checks, topic and
tag extraction, and record assembly (`answerIndex` is the hard-coded
`correct_index = 1`). -/
def processItemBody (mainTopic : String) (chapterNo chapterTitle : Option String)
    (q item : Element) : ItemResult :=
  let snippet := qSnippet q
  let allOpts := allOptionTags item
  if allOpts.length ≠ 5 then
    .rejected [Diag.optionCount allOpts.length snippet]
  else
    let collected := collectNums (strictOptions item)
    if collected.1 = false ∨ numsExactly15 collected.2 = false then
      .rejected [Diag.optionNames (sortStrings (allOpts.map Element.tag))
        (sortNats (dedupNats collected.2)) snippet]
    else
      match buildOptionsGo item snippet [1, 2, 3, 4, 5] with
      | (warns, none) => .rejected (warns ++ [Diag.unexpectedError snippet])
      | (warns, some opts) =>
        .accepted
          { text := questionText q
            options := opts
            answerIndex := 1
            topic := extractTopic mainTopic item
            tag := extractTag item
            chapter_no := chapterNo.getD ""
            CHAPTER_TITLE := chapterTitle.getD "" } warns

/-- Processing of one `QUIZ_ITEM` at loop index `idx`: reject with the
missing-question diagnostic when there is no `QUESTION` direct child,
otherwise run the body (the loop index itself is only ever interpolated into
diagnostics, never into a record). -/
def processItem (mainTopic : String) (chapterNo chapterTitle : Option String)
    (idx : Nat) (item : Element) : ItemResult :=
  match questionChild item with
  | none => .rejected [Diag.noQuestion idx]
  | some q => processItemBody mainTopic chapterNo chapterTitle q item

/-- The `for item_index, item in enumerate(quiz_items)` loop: accepted
records in document order, the skip counter, and the per-item diagnostics in
emission order. -/
def processItems (mainTopic : String) (chapterNo chapterTitle : Option String) :
    Nat → List Element → List QuizRecord × Nat × List Diag
  | _, [] => ([], 0, [])
  | idx, item :: rest =>
    let r := processItems mainTopic chapterNo chapterTitle (idx + 1) rest
    match processItem mainTopic chapterNo chapterTitle idx item with
    | .accepted rec warns => (rec :: r.1, r.2.1, warns ++ r.2.2)
    | .rejected ds => (r.1, r.2.1 + 1, ds ++ r.2.2)

/-- The record an item contributes, independent of its loop index. -/
def itemRecord? (mainTopic : String) (chapterNo chapterTitle : Option String)
    (item : Element) : Option QuizRecord :=
  resultRecord? (processItem mainTopic chapterNo chapterTitle 0 item)

/-- A cell value of the tabular result: a string, a list-of-strings cell
(`options`), an integer cell, or `pd.NA`. -/
inductive Value where
  | str (s : String)
  | list (xs : List String)
  | nat (n : Nat)
  | na
deriving DecidableEq, Repr

/-- One DataFrame row, as (column, value) cells. -/
abbrev Row := List (String × Value)

/-- Read a cell from a row (first matching column). -/
def rowGet : Row → String → Option Value
  | [], _ => none
  | (k, v) :: r, c => if k = c then some v else rowGet r c

/-- Write a cell in a row: overwrite the first matching column, or append a
new cell when the column is absent. -/
def setCell : Row → String → Value → Row
  | [], c, v => [(c, v)]
  | (k, w) :: r, c, v => if k = c then (k, v) :: r else (k, w) :: setCell r c v

/-- A row cell with the pandas missing-value default. -/
def cellOf (r : Row) (c : String) : Value := (rowGet r c).getD Value.na

/-- The pandas DataFrame model: ordered column names and rows. -/
structure DataFrame where
  cols : List String
  rows : List Row
deriving DecidableEq, Repr

/-- Pandas `df.empty`: true when ANY axis has length zero. -/
def DataFrame.isEmptyDF (d : DataFrame) : Bool := d.rows.isEmpty || d.cols.isEmpty

/-- Model of `df[col] = scalar`: set every cell of a column to one value, appending
the column at the end when it is new. -/
def setColConst (d : DataFrame) (c : String) (v : Value) : DataFrame :=
  ⟨if c ∈ d.cols then d.cols else d.cols ++ [c], d.rows.map (fun r => setCell r c v)⟩

/-- Apply a row-index-aware cell function down a row list (`df.index.map` /
`df.apply(..., axis=1)` with the default range index). -/
def idxRows (c : String) (f : Nat → Row → Value) : Nat → List Row → List Row
  | _, [] => []
  | i, r :: rs => setCell r c (f i r) :: idxRows c f (i + 1) rs

/-- Model of `df[col] = series`: set a column from a function of row position and row
content. -/
def setColByRow (d : DataFrame) (c : String) (f : Nat → Row → Value) : DataFrame :=
  ⟨if c ∈ d.cols then d.cols else d.cols ++ [c], idxRows c f 0 d.rows⟩

/-- Model of `df[cols]`: column selection/reordering. -/
def selectCols (d : DataFrame) (cs : List String) : DataFrame :=
  ⟨cs, d.rows.map (fun r => cs.map (fun c => (c, cellOf r c)))⟩

/-- The fixed output schema of the parser (`expected_cols` in the source). -/
def expectedCols : List String :=
  ["text", "options", "answerIndex", "topic", "tag", "chapter_no", "CHAPTER_TITLE"]

/-- The row a `QuizRecord` dict contributes to `pd.DataFrame(quiz_data)`,
with the dict's key order. -/
def recordRow (r : QuizRecord) : Row :=
  [("text", Value.str r.text), ("options", Value.list r.options),
   ("answerIndex", Value.nat r.answerIndex), ("topic", Value.str r.topic),
   ("tag", Value.str r.tag), ("chapter_no", Value.str r.chapter_no),
   ("CHAPTER_TITLE", Value.str r.CHAPTER_TITLE)]

/-- The type-appropriate empty default the schema-completion loop uses for a
missing column: per-row `[]` for `options`, `pd.NA` for `answerIndex`, and
`""` for the text columns. -/
def defaultFor (c : String) : Value :=
  if c = "options" then Value.list [] else if c = "answerIndex" then Value.na else Value.str ""

/-- Model of `pd.DataFrame(quiz_data)` followed by the schema-completion loop and the
final `df = df[expected_cols]` reorder (which the source only performs on a
non-empty frame). -/
def assembleDF (recs : List QuizRecord) : DataFrame :=
  let df0 : DataFrame :=
    if recs.isEmpty then ⟨[], []⟩ else ⟨expectedCols, recs.map recordRow⟩
  let df1 := expectedCols.foldl
    (fun d c => if c ∈ d.cols then d else setColConst d c (defaultFor c)) df0
  if df1.rows.isEmpty then df1 else selectCols df1 expectedCols

/-- Root validation and re-rooting: accept the parsed root when its
uppercased tag is `QUIZ_BANK`; otherwise look for the first `QUIZ_BANK`
descendant (`root.find(".//QUIZ_BANK")`, an exact-name search); `none` is
the fatal path (`ValueError` raised and caught, or the parser itself raised
before producing a root). -/
def resolveRoot : Option Element → Option Element
  | none => none
  | some r =>
    if myToUpper r.tag = "QUIZ_BANK" then some r
    else (descendants r).find? (fun e => e.tag == "QUIZ_BANK")

/-- Model of `root.xpath(".//QUIZ_ITEM")`: every descendant with the exact tag
`QUIZ_ITEM`, in document order. -/
def quizItemsOf (root : Element) : List Element :=
  (descendants root).filter (fun e => e.tag == "QUIZ_ITEM")

/-- Model of `root.get("topic", "")`. -/
def mainTopicOf (root : Element) : String := (root.attr "topic").getD ""

/-- The summary block printed after the item loop: the zero-items warning
(distinguishing empty input from a parsed document without items), the
parsed count and the skipped count. -/
def summaryDiags (items : List Element) (contentNonEmpty : Bool)
    (parsed skipped : Nat) : List Diag :=
  (if items.isEmpty && contentNonEmpty then [Diag.noItemsFound]
   else if !contentNonEmpty then [Diag.emptyInput] else [])
    ++ [Diag.parsedSummary parsed, Diag.skippedSummary skipped]

/-- Model of `parse_quiz_xml_to_dataframe`, from the outcome of the `lxml` parsing
stage onwards.  `parseOutcome` is the root produced by `etree.fromstring`
(`none` when it raised); `contentNonEmpty` records whether the cleaned
`xml_content` string was non-empty (the truthiness tests of the summary
block).  The fatal path returns the bare `pd.DataFrame()` — no columns —
after printing the fatal-parse diagnostic; no exception escapes. -/
def parse_quiz_xml_to_dataframe (parseOutcome : Option Element) (contentNonEmpty : Bool)
    (chapterNo chapterTitle : Option String) : DataFrame × List Diag :=
  match resolveRoot parseOutcome with
  | none => (⟨[], []⟩, [Diag.fatalParse])
  | some root =>
    let items := quizItemsOf root
    let res := processItems (mainTopicOf root) chapterNo chapterTitle 0 items
    (assembleDF res.1,
      res.2.2 ++ summaryDiags items contentNonEmpty res.1.length res.2.1)

/-- The full output schema of the enhancement step (`final_cols`). -/
def finalCols : List String :=
  ["text", "options", "answerIndex", "topic", "tag", "chapter_no", "CHAPTER_TITLE",
   "difficulty", "time_estimate"]

/-- Model of `tag_mapping.get(row["topic"], row["tag"])`: the mapped tag when the
row's topic is a string with an entry in the mapping, otherwise the row's
existing tag. -/
def mappedTagOrOriginal (tm : List (String × String)) (r : Row) : Value :=
  match rowGet r "topic" with
  | some (Value.str t) =>
    match lookupStr tm t with
    | some v => Value.str v
    | none => cellOf r "tag"
  | _ => cellOf r "tag"

/-- The trailing `for col in final_cols` loop: add `difficulty` /
`time_estimate` with their defaults when still missing (the loop has no
branch for the core columns). -/
def finalColsFill (d : DataFrame) : DataFrame :=
  finalCols.foldl
    (fun acc c =>
      if c ∈ acc.cols then acc
      else if c = "difficulty" then setColConst acc c (Value.str "medium")
      else if c = "time_estimate" then setColConst acc c (Value.nat 60)
      else acc) d

/-- Core-column guard, first half: add an empty `topic` column when missing. -/
def enhStepTopic (d : DataFrame) : DataFrame :=
  if "topic" ∈ d.cols then d else setColConst d "topic" (Value.str "")

/-- Core-column guard, second half: add an empty `tag` column when missing. -/
def enhStepTag (d : DataFrame) : DataFrame :=
  if "tag" ∈ d.cols then d else setColConst d "tag" (Value.str "")

/-- Model of `if chapter_no is not None: enhanced_df["chapter_no"] = chapter_no`. -/
def enhStepChapterNo (chapter_no : Option String) (d : DataFrame) : DataFrame :=
  match chapter_no with
  | some v => setColConst d "chapter_no" (Value.str v)
  | none => d

/-- Model of `if chapter_title is not None: enhanced_df["CHAPTER_TITLE"] = chapter_title`. -/
def enhStepChapterTitle (chapter_title : Option String) (d : DataFrame) : DataFrame :=
  match chapter_title with
  | some v => setColConst d "CHAPTER_TITLE" (Value.str v)
  | none => d

/-- The tag-mapping step: when a mapping is given and a `topic` column
exists, recompute `tag` row-wise as mapped-tag-or-original. -/
def enhStepTagMap (tag_mapping : Option (List (String × String))) (d : DataFrame) : DataFrame :=
  match tag_mapping with
  | some tm =>
    if "topic" ∈ d.cols then setColByRow d "tag" (fun _ r => mappedTagOrOriginal tm r)
    else d
  | none => d

/-- The difficulty step: when a mapping is given, assign
`difficulty_levels.get(i, "medium")` by row position (overwriting any
existing value); otherwise only add the `"medium"` default when the column
is missing. -/
def enhStepDifficulty (difficulty_levels : Option (List (Nat × String))) (d : DataFrame) :
    DataFrame :=
  match difficulty_levels with
  | some dl => setColByRow d "difficulty" (fun i _ => Value.str ((lookupNat dl i).getD "medium"))
  | none => if "difficulty" ∈ d.cols then d else setColConst d "difficulty" (Value.str "medium")

/-- The time-estimate step: same shape as the difficulty step with default
`60`. -/
def enhStepTime (time_estimates : Option (List (Nat × Nat))) (d : DataFrame) : DataFrame :=
  match time_estimates with
  | some te => setColByRow d "time_estimate" (fun i _ => Value.nat ((lookupNat te i).getD 60))
  | none => if "time_estimate" ∈ d.cols then d else setColConst d "time_estimate" (Value.nat 60)

/-- The closing `present_cols` selection after the final-column fill. -/
def enhFinish (d : DataFrame) : DataFrame :=
  selectCols (finalColsFill d) (finalCols.filter (fun c => c ∈ (finalColsFill d).cols))

/-- Model of `enhance_quiz_dataframe`: the empty-input short-circuit (pandas
`df.empty`), the core-column guard, the uniform chapter overwrites, the
topic-keyed tag mapping, the index-keyed difficulty / time-estimate
assignment with their defaults, the final-column fill and the closing
`present_cols` selection — the source's column assignments in source
order. -/
def enhance_quiz_dataframe (df : DataFrame) (tag_mapping : Option (List (String × String)))
    (chapter_no chapter_title : Option String)
    (difficulty_levels : Option (List (Nat × String)))
    (time_estimates : Option (List (Nat × Nat))) : DataFrame :=
  if df.isEmptyDF then ⟨finalCols, []⟩ else
  enhFinish (enhStepTime time_estimates (enhStepDifficulty difficulty_levels
    (enhStepTagMap tag_mapping (enhStepChapterTitle chapter_title
      (enhStepChapterNo chapter_no (enhStepTag (enhStepTopic df)))))))

/-! ### Structural lemmas about the per-item loop -/

/-- The loop index is only interpolated into diagnostics: the record an item
produces (and hence its acceptance) does not depend on it. -/
lemma processItem_record_idx (mainTopic : String) (chapterNo chapterTitle : Option String)
    (idx : Nat) (item : Element) :
    resultRecord? (processItem mainTopic chapterNo chapterTitle idx item) =
      itemRecord? mainTopic chapterNo chapterTitle item := by
  unfold itemRecord? processItem
  cases questionChild item <;> rfl

/-- The accepted records of the loop are exactly the per-item records, in
document order. -/
lemma processItems_records (mainTopic : String) (chapterNo chapterTitle : Option String) :
    ∀ (idx : Nat) (l : List Element),
      (processItems mainTopic chapterNo chapterTitle idx l).1 =
        l.filterMap (itemRecord? mainTopic chapterNo chapterTitle) := by
  intro idx l
  induction l generalizing idx with
  | nil => rfl
  | cons item rest ih =>
    have hrec := processItem_record_idx mainTopic chapterNo chapterTitle idx item
    unfold processItems
    cases hpi : processItem mainTopic chapterNo chapterTitle idx item with
    | accepted r w =>
      rw [hpi] at hrec
      simp only [List.filterMap_cons, ← hrec, resultRecord?]
      simpa using (ih (idx + 1))
    | rejected ds =>
      rw [hpi] at hrec
      simp only [List.filterMap_cons, ← hrec, resultRecord?]
      simpa using (ih (idx + 1))

/-- The skip counter counts exactly the items that produce no record. -/
lemma processItems_skipped (mainTopic : String) (chapterNo chapterTitle : Option String) :
    ∀ (idx : Nat) (l : List Element),
      (processItems mainTopic chapterNo chapterTitle idx l).2.1 =
        l.countP (fun it => (itemRecord? mainTopic chapterNo chapterTitle it).isNone) := by
  intro idx l
  induction l generalizing idx with
  | nil => rfl
  | cons item rest ih =>
    have hrec := processItem_record_idx mainTopic chapterNo chapterTitle idx item
    unfold processItems
    cases hpi : processItem mainTopic chapterNo chapterTitle idx item with
    | accepted r w =>
      rw [hpi] at hrec
      simp only [List.countP_cons, ← hrec, resultRecord?, Option.isNone_some]
      simpa using (ih (idx + 1))
    | rejected ds =>
      rw [hpi] at hrec
      simp only [List.countP_cons, ← hrec, resultRecord?, Option.isNone_none]
      rw [ih (idx + 1)]
      simp

/-- A diagnostic every placement of an item emits appears in the diagnostics
of any loop run containing the item. -/
lemma processItems_diag_mem (mainTopic : String) (chapterNo chapterTitle : Option String)
    (item : Element) (d : Diag)
    (h : ∀ j, d ∈ resultDiags (processItem mainTopic chapterNo chapterTitle j item)) :
    ∀ (idx : Nat) (xs ys : List Element),
      d ∈ (processItems mainTopic chapterNo chapterTitle idx (xs ++ item :: ys)).2.2 := by
  intro idx xs ys
  induction xs generalizing idx with
  | nil =>
    have hj := h idx
    simp only [List.nil_append]
    unfold processItems
    cases hpi : processItem mainTopic chapterNo chapterTitle idx item with
    | accepted r w =>
      rw [hpi] at hj
      simp only [resultDiags] at hj
      exact List.mem_append_left _ hj
    | rejected ds =>
      rw [hpi] at hj
      simp only [resultDiags] at hj
      exact List.mem_append_left _ hj
  | cons x xs ih =>
    simp only [List.cons_append]
    unfold processItems
    cases hpi : processItem mainTopic chapterNo chapterTitle idx x with
    | accepted r w => exact List.mem_append_right _ (ih (idx + 1))
    | rejected ds => exact List.mem_append_right _ (ih (idx + 1))

/-- The option-extraction loop produces one option per requested ordinal. -/
lemma buildOptionsGo_length (item : Element) (snippet : String) :
    ∀ (l : List Nat) (w : List Diag) (ts : List String),
      buildOptionsGo item snippet l = (w, some ts) → ts.length = l.length := by
  intro l
  induction l with
  | nil =>
    intro w ts h
    simp only [buildOptionsGo] at h
    cases h
    rfl
  | cons i is ih =>
    intro w ts h
    simp only [buildOptionsGo] at h
    cases hh : (optionMatches item i).head? with
    | none => rw [hh] at h; cases h
    | some opt =>
      rw [hh] at h
      cases hr : (buildOptionsGo item snippet is).2 with
      | none => rw [hr] at h; cases h
      | some ts' =>
        rw [hr] at h
        cases h
        have := ih (buildOptionsGo item snippet is).1 ts'
          (by rw [← hr])
        simp [this]

/-- Each extracted option is the stripped inner markup of the first
case-insensitive `OPTION{i}` child for its ordinal. -/
lemma buildOptionsGo_get (item : Element) (snippet : String) :
    ∀ (l : List Nat) (w : List Diag) (ts : List String),
      buildOptionsGo item snippet l = (w, some ts) →
      ∀ k : Nat, ts[k]? =
        (l[k]?).bind (fun i => ((optionMatches item i).head?).map (fun e => myTrim e.inner)) := by
  intro l
  induction l with
  | nil =>
    intro w ts h k
    simp only [buildOptionsGo] at h
    cases h
    simp
  | cons i is ih =>
    intro w ts h k
    simp only [buildOptionsGo] at h
    cases hh : (optionMatches item i).head? with
    | none => rw [hh] at h; cases h
    | some opt =>
      rw [hh] at h
      cases hr : (buildOptionsGo item snippet is).2 with
      | none => rw [hr] at h; cases h
      | some ts' =>
        rw [hr] at h
        cases h
        cases k with
        | zero => simp [hh]
        | succ k =>
          have := ih (buildOptionsGo item snippet is).1 ts' (by rw [← hr]) k
          simpa using this

/-- Shape of an accepted record: five options in ordinal order (index `k`
holds the content of option field `k + 1`) and the hard-coded answer
position `1`. -/
lemma processItemBody_accepted (mainTopic : String) (chapterNo chapterTitle : Option String)
    (q item : Element) (r : QuizRecord) (w : List Diag)
    (h : processItemBody mainTopic chapterNo chapterTitle q item = .accepted r w) :
    r.options.length = 5 ∧ r.answerIndex = 1 ∧
      ∀ k : Nat, k < 5 → r.options[k]? =
        ((optionMatches item (k + 1)).head?).map (fun e => myTrim e.inner) := by
  unfold processItemBody at h
  by_cases h5 : (allOptionTags item).length ≠ 5
  · rw [if_pos h5] at h; cases h
  · rw [if_neg h5] at h
    by_cases hn : (collectNums (strictOptions item)).1 = false ∨
        numsExactly15 (collectNums (strictOptions item)).2 = false
    · rw [if_pos hn] at h; cases h
    · rw [if_neg hn] at h
      cases hb : buildOptionsGo item (qSnippet q) [1, 2, 3, 4, 5] with
      | mk ws ores =>
        rw [hb] at h
        cases ores with
        | none => cases h
        | some opts =>
          cases h
          refine ⟨buildOptionsGo_length item (qSnippet q) _ _ _ hb, rfl, ?_⟩
          intro k hk
          have hget := buildOptionsGo_get item (qSnippet q) _ _ _ hb k
          have hidx : ([1, 2, 3, 4, 5] : List Nat)[k]? = some (k + 1) := by
            interval_cases k <;> rfl
          rw [hidx] at hget
          simpa using hget

/-- Shape of any record an item contributes. -/
lemma itemRecord?_shape (mainTopic : String) (chapterNo chapterTitle : Option String)
    (item : Element) (r : QuizRecord)
    (h : itemRecord? mainTopic chapterNo chapterTitle item = some r) :
    r.options.length = 5 ∧ r.answerIndex = 1 ∧
      ∀ k : Nat, k < 5 → r.options[k]? =
        ((optionMatches item (k + 1)).head?).map (fun e => myTrim e.inner) := by
  unfold itemRecord? processItem at h
  cases hq : questionChild item with
  | none => rw [hq] at h; cases h
  | some q =>
    rw [hq] at h
    have h' : resultRecord? (processItemBody mainTopic chapterNo chapterTitle q item) = some r := h
    cases hb : processItemBody mainTopic chapterNo chapterTitle q item with
    | accepted r' w =>
      rw [hb] at h'
      have hr : r' = r := by simpa [resultRecord?] using h'
      subst hr
      exact processItemBody_accepted mainTopic chapterNo chapterTitle q item r' w hb
    | rejected ds =>
      rw [hb] at h'
      simp only [resultRecord?] at h'
      cases h'

/-! ### Structural lemmas about the DataFrame model -/

lemma rowGet_setCell_same (r : Row) (c : String) (v : Value) :
    rowGet (setCell r c v) c = some v := by
  induction r with
  | nil => simp [setCell, rowGet]
  | cons kv rest ih =>
    obtain ⟨k, w⟩ := kv
    by_cases hk : k = c
    · simp [setCell, rowGet, hk]
    · simp [setCell, rowGet, hk, ih]

lemma rowGet_setCell_ne (r : Row) (c c' : String) (v : Value) (h : c' ≠ c) :
    rowGet (setCell r c v) c' = rowGet r c' := by
  have hcc : ¬ c = c' := by
    intro hh
    exact h hh.symm
  induction r with
  | nil => simp [setCell, rowGet, hcc]
  | cons kv rest ih =>
    obtain ⟨k, w⟩ := kv
    by_cases hk : k = c
    · subst hk
      simp [setCell, rowGet, hcc]
    · simp only [setCell, if_neg hk]
      by_cases hk' : k = c'
      · simp [rowGet, hk']
      · simp [rowGet, hk', ih]

lemma cellOf_setCell_ne (r : Row) (c c' : String) (v : Value) (h : c' ≠ c) :
    cellOf (setCell r c v) c' = cellOf r c' := by
  simp [cellOf, rowGet_setCell_ne r c c' v h]

lemma idxRows_length (c : String) (f : Nat → Row → Value) :
    ∀ (i : Nat) (rs : List Row), (idxRows c f i rs).length = rs.length := by
  intro i rs
  induction rs generalizing i with
  | nil => rfl
  | cons r rest ih => simp [idxRows, ih]

lemma idxRows_getElem? (c : String) (f : Nat → Row → Value) :
    ∀ (i k : Nat) (rs : List Row),
      (idxRows c f i rs)[k]? = (rs[k]?).map (fun r => setCell r c (f (i + k) r)) := by
  intro i k rs
  induction rs generalizing i k with
  | nil => simp [idxRows]
  | cons r rest ih =>
    cases k with
    | zero => simp [idxRows]
    | succ k =>
      simp only [idxRows, List.getElem?_cons_succ]
      rw [ih (i + 1) k]
      have : i + 1 + k = i + (k + 1) := by omega
      rw [this]

lemma setColConst_rows_getElem? (d : DataFrame) (c : String) (v : Value) (k : Nat) :
    (setColConst d c v).rows[k]? = (d.rows[k]?).map (fun r => setCell r c v) := by
  simp [setColConst, List.getElem?_map]

lemma setColConst_rows_length (d : DataFrame) (c : String) (v : Value) :
    (setColConst d c v).rows.length = d.rows.length := by
  simp [setColConst]

lemma setColConst_cols_mem (d : DataFrame) (c c' : String) (v : Value) (h : c' ∈ d.cols) :
    c' ∈ (setColConst d c v).cols := by
  simp only [setColConst]
  by_cases hc : c ∈ d.cols
  · simpa [hc] using h
  · simp only [if_neg hc]
    exact List.mem_append_left _ h

lemma setColConst_cols_self (d : DataFrame) (c : String) (v : Value) :
    c ∈ (setColConst d c v).cols := by
  simp only [setColConst]
  by_cases hc : c ∈ d.cols
  · simp [hc]
  · simp [if_neg hc]

lemma setColByRow_rows_getElem? (d : DataFrame) (c : String) (f : Nat → Row → Value) (k : Nat) :
    (setColByRow d c f).rows[k]? = (d.rows[k]?).map (fun r => setCell r c (f k r)) := by
  simp only [setColByRow]
  rw [idxRows_getElem? c f 0 k d.rows]
  simp

lemma setColByRow_rows_length (d : DataFrame) (c : String) (f : Nat → Row → Value) :
    (setColByRow d c f).rows.length = d.rows.length := by
  simp [setColByRow, idxRows_length]

lemma setColByRow_cols_mem (d : DataFrame) (c c' : String) (f : Nat → Row → Value)
    (h : c' ∈ d.cols) : c' ∈ (setColByRow d c f).cols := by
  simp only [setColByRow]
  by_cases hc : c ∈ d.cols
  · simpa [hc] using h
  · simp only [if_neg hc]
    exact List.mem_append_left _ h

lemma setColByRow_cols_self (d : DataFrame) (c : String) (f : Nat → Row → Value) :
    c ∈ (setColByRow d c f).cols := by
  simp only [setColByRow]
  by_cases hc : c ∈ d.cols
  · simp [hc]
  · simp [if_neg hc]

lemma selectCols_rows_getElem? (d : DataFrame) (cs : List String) (k : Nat) :
    (selectCols d cs).rows[k]? = (d.rows[k]?).map (fun r => cs.map (fun c => (c, cellOf r c))) := by
  simp [selectCols, List.getElem?_map]

lemma selectCols_rows_length (d : DataFrame) (cs : List String) :
    (selectCols d cs).rows.length = d.rows.length := by
  simp [selectCols]

/-- Reading a selected column from a projected row gives the projected cell. -/
lemma rowGet_projRow (r : Row) (cs : List String) (c : String) (h : c ∈ cs) :
    rowGet (cs.map (fun c' => (c', cellOf r c'))) c = some (cellOf r c) := by
  induction cs with
  | nil => cases h
  | cons c0 rest ih =>
    by_cases hc : c0 = c
    · simp [rowGet, hc]
    · have hmem : c ∈ rest := by
        rcases List.mem_cons.mp h with h0 | h0
        · exact absurd h0.symm hc
        · exact h0
      simp [rowGet, hc, ih hmem]

/-- The schema-completion fold is the identity when every listed column is
already present. -/
lemma foldl_addCol_id (g : String → Value) :
    ∀ (l : List String) (d : DataFrame), (∀ c ∈ l, c ∈ d.cols) →
      l.foldl (fun d c => if c ∈ d.cols then d else setColConst d c (g c)) d = d := by
  intro l
  induction l with
  | nil => intro d _; rfl
  | cons c0 rest ih =>
    intro d h
    have h0 : c0 ∈ d.cols := h c0 (List.mem_cons_self c0 rest)
    simp only [List.foldl_cons, if_pos h0]
    exact ih d (fun c hc => h c (List.mem_cons_of_mem c0 hc))

/-- The parser's returned frame always exposes exactly the seven-column
schema, in order. -/
lemma assembleDF_cols (recs : List QuizRecord) : (assembleDF recs).cols = expectedCols := by
  cases recs with
  | nil => rfl
  | cons r rs =>
    unfold assembleDF
    simp only [List.isEmpty_cons, if_neg]
    have hfold := foldl_addCol_id defaultFor expectedCols
      ⟨expectedCols, (r :: rs).map recordRow⟩ (fun c hc => hc)
    simp only [Bool.false_eq_true, if_false, hfold]
    have hrows : (DataFrame.mk expectedCols ((r :: rs).map recordRow)).rows.isEmpty = false := by
      simp
    rw [hrows]
    simp [selectCols]

/-- Rows of the assembled frame: each is the seven-column projection of one
accepted record's row, in order. -/
lemma assembleDF_rows (recs : List QuizRecord) :
    (assembleDF recs).rows =
      recs.map (fun rec => expectedCols.map (fun c => (c, cellOf (recordRow rec) c))) := by
  cases recs with
  | nil => rfl
  | cons r rs =>
    unfold assembleDF
    have hfold := foldl_addCol_id defaultFor expectedCols
      ⟨expectedCols, (r :: rs).map recordRow⟩ (fun c hc => hc)
    simp only [List.isEmpty_cons, Bool.false_eq_true, if_false, hfold]
    have hrows : (DataFrame.mk expectedCols ((r :: rs).map recordRow)).rows.isEmpty = false := by
      simp
    rw [hrows]
    simp [selectCols]

/-! ### Claims C1-C4: the per-item accept/reject discipline -/

/-- C1: every record accepted by `parse_quiz_xml_to_dataframe` has an
`options` sequence of exactly 5 strings — index `k` holding the content of
option field `k + 1` — and `answerIndex = 1`, regardless of the items'
`correct` attribute values (which never reach the record); moreover every
row of the returned DataFrame carries exactly those values. -/
theorem c1_accepted_shape (mainTopic : String) (chapterNo chapterTitle : Option String)
    (idx : Nat) (items : List Element) (r : QuizRecord)
    (hr : r ∈ (processItems mainTopic chapterNo chapterTitle idx items).1) :
    (r.options.length = 5 ∧ r.answerIndex = 1 ∧
      ∃ item ∈ items, ∀ k : Nat, k < 5 → r.options[k]? =
        ((optionMatches item (k + 1)).head?).map (fun e => myTrim e.inner)) ∧
    (∀ (pr : Option Element) (b : Bool) (row : Row),
      row ∈ (parse_quiz_xml_to_dataframe pr b chapterNo chapterTitle).1.rows →
      rowGet row "answerIndex" = some (Value.nat 1) ∧
        ∃ opts, rowGet row "options" = some (Value.list opts) ∧ opts.length = 5) := by
  constructor
  · rw [processItems_records] at hr
    obtain ⟨item, hitem, hrec⟩ := List.mem_filterMap.mp hr
    obtain ⟨h5, h1, hcontent⟩ := itemRecord?_shape mainTopic chapterNo chapterTitle item r hrec
    exact ⟨h5, h1, item, hitem, hcontent⟩
  · intro pr b row hrow
    unfold parse_quiz_xml_to_dataframe at hrow
    cases hres : resolveRoot pr with
    | none => rw [hres] at hrow; simp at hrow
    | some root =>
      rw [hres] at hrow
      simp only [assembleDF_rows] at hrow
      obtain ⟨rec, hrec, hrw⟩ := List.mem_map.mp hrow
      rw [processItems_records] at hrec
      obtain ⟨item, _, hsome⟩ := List.mem_filterMap.mp hrec
      obtain ⟨h5, h1, _⟩ := itemRecord?_shape _ chapterNo chapterTitle item rec hsome
      subst hrw
      constructor
      · rw [rowGet_projRow (recordRow rec) expectedCols "answerIndex" (by decide)]
        have : cellOf (recordRow rec) "answerIndex" = Value.nat rec.answerIndex := rfl
        rw [this, h1]
      · refine ⟨rec.options, ?_, h5⟩
        rw [rowGet_projRow (recordRow rec) expectedCols "options" (by decide)]
        rfl

/-- A well-formed demonstration item: `QUESTION` plus `OPTION1`-`OPTION5`
and a `TOPIC`. -/
def c1Item : Element :=
  .mk "QUIZ_ITEM" [] [] ""
    [.mk "QUESTION" [] ["What?"] "What?" [],
     .mk "OPTION1" [("correct", "true")] ["a"] "a" [],
     .mk "OPTION2" [("correct", "false")] ["b"] "b" [],
     .mk "OPTION3" [("correct", "false")] ["c"] "c" [],
     .mk "OPTION4" [("correct", "false")] ["d"] "d" [],
     .mk "OPTION5" [("correct", "false")] ["e"] "e" [],
     .mk "TOPIC" [] ["T"] "T" []]

/-- The record `c1Item` is accepted as. -/
def c1Rec : QuizRecord :=
  { text := "What?", options := ["a", "b", "c", "d", "e"], answerIndex := 1,
    topic := "T", tag := "", chapter_no := "", CHAPTER_TITLE := "" }

/-- Witness for C1 at a concrete accepted item. -/
theorem c1_accepted_shape_witness : c1Rec.options.length = 5 ∧ c1Rec.answerIndex = 1 :=
  ⟨(c1_accepted_shape "" none none 0 [c1Item] c1Rec (by decide)).1.1,
   (c1_accepted_shape "" none none 0 [c1Item] c1Rec (by decide)).1.2.1⟩

/-- C2: an item owning a `QUESTION` whose option-prefixed children number 4
or 6 (in particular one whose option fields are exactly `OPTION1..OPTION4`
or exactly `OPTION1..OPTION6`) is always rejected with the diagnostic
carrying the exact found count; it contributes no record and increments the
skip counter wherever it occurs in the document. -/
theorem c2_count_rejection (mainTopic : String) (chapterNo chapterTitle : Option String)
    (item : Element) (hq : hasQuestion item = true)
    (hk : (allOptionTags item).length = 4 ∨ (allOptionTags item).length = 6) :
    (∀ idx, processItem mainTopic chapterNo chapterTitle idx item =
      .rejected [Diag.optionCount (allOptionTags item).length (snippetOf item)]) ∧
    ((allOptionTags item).length = 4 ∨ (allOptionTags item).length = 6) ∧
    (∀ (idx : Nat) (xs ys : List Element),
      (processItems mainTopic chapterNo chapterTitle idx (xs ++ item :: ys)).1 =
        (processItems mainTopic chapterNo chapterTitle idx (xs ++ ys)).1 ∧
      (processItems mainTopic chapterNo chapterTitle idx (xs ++ item :: ys)).2.1 =
        (processItems mainTopic chapterNo chapterTitle idx (xs ++ ys)).2.1 + 1 ∧
      Diag.optionCount (allOptionTags item).length (snippetOf item) ∈
        (processItems mainTopic chapterNo chapterTitle idx (xs ++ item :: ys)).2.2) := by
  obtain ⟨q, hqc⟩ := Option.isSome_iff_exists.mp hq
  have hsnip : snippetOf item = qSnippet q := by
    unfold snippetOf
    rw [hqc]
  have h5 : (allOptionTags item).length ≠ 5 := by omega
  have hrej : ∀ idx, processItem mainTopic chapterNo chapterTitle idx item =
      .rejected [Diag.optionCount (allOptionTags item).length (snippetOf item)] := by
    intro idx
    have hb : processItem mainTopic chapterNo chapterTitle idx item =
        processItemBody mainTopic chapterNo chapterTitle q item := by
      unfold processItem
      rw [hqc]
    rw [hb, hsnip]
    simp only [processItemBody]
    rw [if_pos h5]
  have hnone : itemRecord? mainTopic chapterNo chapterTitle item = none := by
    unfold itemRecord?
    rw [hrej 0]
    rfl
  refine ⟨hrej, hk, ?_⟩
  intro idx xs ys
  refine ⟨?_, ?_, ?_⟩
  · rw [processItems_records, processItems_records, List.filterMap_append,
      List.filterMap_append, List.filterMap_cons, hnone]
  · rw [processItems_skipped, processItems_skipped, List.countP_append, List.countP_append,
      List.countP_cons]
    simp [hnone]
    omega
  · apply processItems_diag_mem
    intro j
    rw [hrej j]
    simp [resultDiags]

/-- A demonstration item with a question and exactly the option fields
`OPTION1..OPTION4`. -/
def c2Item : Element :=
  .mk "QUIZ_ITEM" [] [] ""
    [.mk "QUESTION" [] ["Few?"] "Few?" [],
     .mk "OPTION1" [("correct", "true")] ["a"] "a" [],
     .mk "OPTION2" [("correct", "false")] ["b"] "b" [],
     .mk "OPTION3" [("correct", "false")] ["c"] "c" [],
     .mk "OPTION4" [("correct", "false")] ["d"] "d" []]

/-- Witness for C2 at a concrete 4-option item. -/
theorem c2_count_rejection_witness :
    processItem "" none none 0 c2Item =
      .rejected [Diag.optionCount (allOptionTags c2Item).length (snippetOf c2Item)] :=
  (c2_count_rejection "" none none c2Item (by decide) (Or.inl (by decide))).1 0

/-- C3: an item owning a `QUESTION` with exactly 5 option-prefixed children
whose extracted trailing ordinals do not form the set `{1, 2, 3, 4, 5}` is
rejected — despite the count being 5 — with the diagnostic listing the
actual option tag names found; it contributes no record (it is never
partially recorded) and increments the skip counter wherever it occurs. -/
theorem c3_ordinal_rejection (mainTopic : String) (chapterNo chapterTitle : Option String)
    (item : Element) (hq : hasQuestion item = true)
    (h5 : (allOptionTags item).length = 5)
    (hbad : (collectNums (strictOptions item)).1 = false ∨
      numsExactly15 (collectNums (strictOptions item)).2 = false) :
    (∀ idx, processItem mainTopic chapterNo chapterTitle idx item =
      .rejected [Diag.optionNames (sortStrings ((allOptionTags item).map Element.tag))
        (sortNats (dedupNats (collectNums (strictOptions item)).2)) (snippetOf item)]) ∧
    (∀ (idx : Nat) (xs ys : List Element),
      (processItems mainTopic chapterNo chapterTitle idx (xs ++ item :: ys)).1 =
        (processItems mainTopic chapterNo chapterTitle idx (xs ++ ys)).1 ∧
      (processItems mainTopic chapterNo chapterTitle idx (xs ++ item :: ys)).2.1 =
        (processItems mainTopic chapterNo chapterTitle idx (xs ++ ys)).2.1 + 1 ∧
      Diag.optionNames (sortStrings ((allOptionTags item).map Element.tag))
        (sortNats (dedupNats (collectNums (strictOptions item)).2)) (snippetOf item) ∈
        (processItems mainTopic chapterNo chapterTitle idx (xs ++ item :: ys)).2.2) := by
  obtain ⟨q, hqc⟩ := Option.isSome_iff_exists.mp hq
  have hsnip : snippetOf item = qSnippet q := by
    unfold snippetOf
    rw [hqc]
  have hne : ¬ (allOptionTags item).length ≠ 5 := by omega
  have hrej : ∀ idx, processItem mainTopic chapterNo chapterTitle idx item =
      .rejected [Diag.optionNames (sortStrings ((allOptionTags item).map Element.tag))
        (sortNats (dedupNats (collectNums (strictOptions item)).2)) (snippetOf item)] := by
    intro idx
    have hb : processItem mainTopic chapterNo chapterTitle idx item =
        processItemBody mainTopic chapterNo chapterTitle q item := by
      unfold processItem
      rw [hqc]
    rw [hb, hsnip]
    simp only [processItemBody]
    rw [if_neg hne, if_pos hbad]
  have hnone : itemRecord? mainTopic chapterNo chapterTitle item = none := by
    unfold itemRecord?
    rw [hrej 0]
    rfl
  refine ⟨hrej, ?_⟩
  intro idx xs ys
  refine ⟨?_, ?_, ?_⟩
  · rw [processItems_records, processItems_records, List.filterMap_append,
      List.filterMap_append, List.filterMap_cons, hnone]
  · rw [processItems_skipped, processItems_skipped, List.countP_append, List.countP_append,
      List.countP_cons]
    simp [hnone]
    omega
  · apply processItems_diag_mem
    intro j
    rw [hrej j]
    simp [resultDiags]

/-- A demonstration item with 5 option fields but a duplicate `OPTION2` and
no `OPTION3`. -/
def c3Item : Element :=
  .mk "QUIZ_ITEM" [] [] ""
    [.mk "QUESTION" [] ["Dup?"] "Dup?" [],
     .mk "OPTION1" [("correct", "true")] ["a"] "a" [],
     .mk "OPTION2" [("correct", "false")] ["b"] "b" [],
     .mk "OPTION2" [("correct", "false")] ["b2"] "b2" [],
     .mk "OPTION4" [("correct", "false")] ["d"] "d" [],
     .mk "OPTION5" [("correct", "false")] ["e"] "e" []]

/-- Witness for C3 at a concrete duplicate-ordinal item. -/
theorem c3_ordinal_rejection_witness :
    processItem "" none none 0 c3Item =
      .rejected [Diag.optionNames (sortStrings ((allOptionTags c3Item).map Element.tag))
        (sortNats (dedupNats (collectNums (strictOptions c3Item)).2)) (snippetOf c3Item)] :=
  (c3_ordinal_rejection "" none none c3Item (by decide) (by decide) (Or.inr (by decide))).1 0

/-- C4: rejecting one item never changes the records contributed by sibling
items — dropping the rejected item from the document leaves the record list
unchanged — and the accepted records are exactly the per-item records of the
surviving items, in document order. -/
theorem c4_sibling_independence (mainTopic : String) (chapterNo chapterTitle : Option String)
    (xs ys : List Element) (bad : Element)
    (hrej : itemRecord? mainTopic chapterNo chapterTitle bad = none) :
    (∀ idx : Nat, (processItems mainTopic chapterNo chapterTitle idx (xs ++ bad :: ys)).1 =
      (processItems mainTopic chapterNo chapterTitle idx (xs ++ ys)).1) ∧
    (∀ (idx : Nat) (l : List Element), (processItems mainTopic chapterNo chapterTitle idx l).1 =
      l.filterMap (itemRecord? mainTopic chapterNo chapterTitle)) := by
  refine ⟨?_, processItems_records mainTopic chapterNo chapterTitle⟩
  intro idx
  rw [processItems_records, processItems_records, List.filterMap_append,
    List.filterMap_append, List.filterMap_cons, hrej]

/-- A well-formed sibling item used by the C4 witness. -/
def c4Good : Element :=
  .mk "QUIZ_ITEM" [] [] ""
    [.mk "QUESTION" [] ["Ok?"] "Ok?" [],
     .mk "OPTION1" [("correct", "true")] ["a"] "a" [],
     .mk "OPTION2" [("correct", "false")] ["b"] "b" [],
     .mk "OPTION3" [("correct", "false")] ["c"] "c" [],
     .mk "OPTION4" [("correct", "false")] ["d"] "d" [],
     .mk "OPTION5" [("correct", "false")] ["e"] "e" []]

/-- A rejected item (no `QUESTION` child) used by the C4 witness. -/
def c4Bad : Element := .mk "QUIZ_ITEM" [] [] "" []

/-- Witness for C4 at a concrete two-item document. -/
theorem c4_sibling_independence_witness :
    (processItems "" none none 0 ([c4Good] ++ c4Bad :: [])).1 =
      (processItems "" none none 0 ([c4Good] ++ [])).1 :=
  (c4_sibling_independence "" none none [c4Good] [] c4Bad (by decide)).1 0

/-! ### Lemmas about the enhancement steps -/

lemma setColConst_back (d : DataFrame) (c : String) (v : Value) (i : Nat) (r' : Row)
    (h : (setColConst d c v).rows[i]? = some r') :
    ∃ r0, d.rows[i]? = some r0 ∧ r' = setCell r0 c v := by
  rw [setColConst_rows_getElem?] at h
  cases h0 : d.rows[i]? with
  | none => rw [h0] at h; cases h
  | some r0 =>
    rw [h0] at h
    simp only [Option.map_some', Option.some.injEq] at h
    exact ⟨r0, rfl, h.symm⟩

lemma setColByRow_back (d : DataFrame) (c : String) (f : Nat → Row → Value) (i : Nat) (r' : Row)
    (h : (setColByRow d c f).rows[i]? = some r') :
    ∃ r0, d.rows[i]? = some r0 ∧ r' = setCell r0 c (f i r0) := by
  rw [setColByRow_rows_getElem?] at h
  cases h0 : d.rows[i]? with
  | none => rw [h0] at h; cases h
  | some r0 =>
    rw [h0] at h
    simp only [Option.map_some', Option.some.injEq] at h
    exact ⟨r0, rfl, h.symm⟩

lemma enhStepTopic_back (d : DataFrame) (i : Nat) (r' : Row)
    (h : (enhStepTopic d).rows[i]? = some r') :
    ∃ r0, d.rows[i]? = some r0 ∧ ∀ c, c ≠ "topic" → rowGet r' c = rowGet r0 c := by
  unfold enhStepTopic at h
  by_cases ht : "topic" ∈ d.cols
  · rw [if_pos ht] at h
    exact ⟨r', h, fun c _ => rfl⟩
  · rw [if_neg ht] at h
    obtain ⟨r0, h0, hr⟩ := setColConst_back d "topic" (Value.str "") i r' h
    exact ⟨r0, h0, fun c hc => by rw [hr]; exact rowGet_setCell_ne r0 "topic" c _ hc⟩

lemma enhStepTag_back (d : DataFrame) (i : Nat) (r' : Row)
    (h : (enhStepTag d).rows[i]? = some r') :
    ∃ r0, d.rows[i]? = some r0 ∧ ∀ c, c ≠ "tag" → rowGet r' c = rowGet r0 c := by
  unfold enhStepTag at h
  by_cases ht : "tag" ∈ d.cols
  · rw [if_pos ht] at h
    exact ⟨r', h, fun c _ => rfl⟩
  · rw [if_neg ht] at h
    obtain ⟨r0, h0, hr⟩ := setColConst_back d "tag" (Value.str "") i r' h
    exact ⟨r0, h0, fun c hc => by rw [hr]; exact rowGet_setCell_ne r0 "tag" c _ hc⟩

lemma enhStepChapterNo_back (cn : Option String) (d : DataFrame) (i : Nat) (r' : Row)
    (h : (enhStepChapterNo cn d).rows[i]? = some r') :
    ∃ r0, d.rows[i]? = some r0 ∧ ∀ c, c ≠ "chapter_no" → rowGet r' c = rowGet r0 c := by
  cases cn with
  | none => exact ⟨r', h, fun c _ => rfl⟩
  | some v =>
    simp only [enhStepChapterNo] at h
    obtain ⟨r0, h0, hr⟩ := setColConst_back d "chapter_no" (Value.str v) i r' h
    exact ⟨r0, h0, fun c hc => by rw [hr]; exact rowGet_setCell_ne r0 "chapter_no" c _ hc⟩

lemma enhStepChapterTitle_back (ct : Option String) (d : DataFrame) (i : Nat) (r' : Row)
    (h : (enhStepChapterTitle ct d).rows[i]? = some r') :
    ∃ r0, d.rows[i]? = some r0 ∧ ∀ c, c ≠ "CHAPTER_TITLE" → rowGet r' c = rowGet r0 c := by
  cases ct with
  | none => exact ⟨r', h, fun c _ => rfl⟩
  | some v =>
    simp only [enhStepChapterTitle] at h
    obtain ⟨r0, h0, hr⟩ := setColConst_back d "CHAPTER_TITLE" (Value.str v) i r' h
    exact ⟨r0, h0, fun c hc => by rw [hr]; exact rowGet_setCell_ne r0 "CHAPTER_TITLE" c _ hc⟩

lemma enhStepDifficulty_back (dl : Option (List (Nat × String))) (d : DataFrame) (i : Nat)
    (r' : Row) (h : (enhStepDifficulty dl d).rows[i]? = some r') :
    ∃ r0, d.rows[i]? = some r0 ∧ ∀ c, c ≠ "difficulty" → rowGet r' c = rowGet r0 c := by
  cases dl with
  | some m =>
    simp only [enhStepDifficulty] at h
    obtain ⟨r0, h0, hr⟩ := setColByRow_back d "difficulty" _ i r' h
    exact ⟨r0, h0, fun c hc => by rw [hr]; exact rowGet_setCell_ne r0 "difficulty" c _ hc⟩
  | none =>
    simp only [enhStepDifficulty] at h
    by_cases hd : "difficulty" ∈ d.cols
    · rw [if_pos hd] at h
      exact ⟨r', h, fun c _ => rfl⟩
    · rw [if_neg hd] at h
      obtain ⟨r0, h0, hr⟩ := setColConst_back d "difficulty" (Value.str "medium") i r' h
      exact ⟨r0, h0, fun c hc => by rw [hr]; exact rowGet_setCell_ne r0 "difficulty" c _ hc⟩

lemma enhStepTime_back (te : Option (List (Nat × Nat))) (d : DataFrame) (i : Nat)
    (r' : Row) (h : (enhStepTime te d).rows[i]? = some r') :
    ∃ r0, d.rows[i]? = some r0 ∧ ∀ c, c ≠ "time_estimate" → rowGet r' c = rowGet r0 c := by
  cases te with
  | some m =>
    simp only [enhStepTime] at h
    obtain ⟨r0, h0, hr⟩ := setColByRow_back d "time_estimate" _ i r' h
    exact ⟨r0, h0, fun c hc => by rw [hr]; exact rowGet_setCell_ne r0 "time_estimate" c _ hc⟩
  | none =>
    simp only [enhStepTime] at h
    by_cases hd : "time_estimate" ∈ d.cols
    · rw [if_pos hd] at h
      exact ⟨r', h, fun c _ => rfl⟩
    · rw [if_neg hd] at h
      obtain ⟨r0, h0, hr⟩ := setColConst_back d "time_estimate" (Value.nat 60) i r' h
      exact ⟨r0, h0, fun c hc => by rw [hr]; exact rowGet_setCell_ne r0 "time_estimate" c _ hc⟩

lemma enhStepTopic_cols_mem (d : DataFrame) (c : String) (h : c ∈ d.cols) :
    c ∈ (enhStepTopic d).cols := by
  unfold enhStepTopic
  by_cases ht : "topic" ∈ d.cols
  · rwa [if_pos ht]
  · rw [if_neg ht]
    exact setColConst_cols_mem d _ c _ h

lemma enhStepTag_cols_mem (d : DataFrame) (c : String) (h : c ∈ d.cols) :
    c ∈ (enhStepTag d).cols := by
  unfold enhStepTag
  by_cases ht : "tag" ∈ d.cols
  · rwa [if_pos ht]
  · rw [if_neg ht]
    exact setColConst_cols_mem d _ c _ h

lemma enhStepChapterNo_cols_mem (cn : Option String) (d : DataFrame) (c : String)
    (h : c ∈ d.cols) : c ∈ (enhStepChapterNo cn d).cols := by
  cases cn with
  | none => exact h
  | some v => exact setColConst_cols_mem d _ c _ h

lemma enhStepChapterTitle_cols_mem (ct : Option String) (d : DataFrame) (c : String)
    (h : c ∈ d.cols) : c ∈ (enhStepChapterTitle ct d).cols := by
  cases ct with
  | none => exact h
  | some v => exact setColConst_cols_mem d _ c _ h

lemma enhStepTagMap_cols_mem (tm : Option (List (String × String))) (d : DataFrame) (c : String)
    (h : c ∈ d.cols) : c ∈ (enhStepTagMap tm d).cols := by
  cases tm with
  | none => exact h
  | some m =>
    simp only [enhStepTagMap]
    by_cases ht : "topic" ∈ d.cols
    · rw [if_pos ht]
      exact setColByRow_cols_mem d _ c _ h
    · rwa [if_neg ht]

lemma enhStepDifficulty_cols_mem (dl : Option (List (Nat × String))) (d : DataFrame) (c : String)
    (h : c ∈ d.cols) : c ∈ (enhStepDifficulty dl d).cols := by
  cases dl with
  | some m => exact setColByRow_cols_mem d _ c _ h
  | none =>
    simp only [enhStepDifficulty]
    by_cases hd : "difficulty" ∈ d.cols
    · rwa [if_pos hd]
    · rw [if_neg hd]
      exact setColConst_cols_mem d _ c _ h

lemma enhStepTime_cols_mem (te : Option (List (Nat × Nat))) (d : DataFrame) (c : String)
    (h : c ∈ d.cols) : c ∈ (enhStepTime te d).cols := by
  cases te with
  | some m => exact setColByRow_cols_mem d _ c _ h
  | none =>
    simp only [enhStepTime]
    by_cases hd : "time_estimate" ∈ d.cols
    · rwa [if_pos hd]
    · rw [if_neg hd]
      exact setColConst_cols_mem d _ c _ h

lemma enhStepDifficulty_diff_mem (dl : Option (List (Nat × String))) (d : DataFrame) :
    "difficulty" ∈ (enhStepDifficulty dl d).cols := by
  cases dl with
  | some m => exact setColByRow_cols_self d _ _
  | none =>
    simp only [enhStepDifficulty]
    by_cases hd : "difficulty" ∈ d.cols
    · rwa [if_pos hd]
    · rw [if_neg hd]
      exact setColConst_cols_self d _ _

lemma enhStepTime_time_mem (te : Option (List (Nat × Nat))) (d : DataFrame) :
    "time_estimate" ∈ (enhStepTime te d).cols := by
  cases te with
  | some m => exact setColByRow_cols_self d _ _
  | none =>
    simp only [enhStepTime]
    by_cases hd : "time_estimate" ∈ d.cols
    · rwa [if_pos hd]
    · rw [if_neg hd]
      exact setColConst_cols_self d _ _

/-- The trailing final-column fill is the identity once `difficulty` and
`time_estimate` are present (which the two preceding steps guarantee). -/
lemma foldl_fill_id :
    ∀ (l : List String) (d : DataFrame),
      "difficulty" ∈ d.cols → "time_estimate" ∈ d.cols →
      l.foldl (fun acc c =>
        if c ∈ acc.cols then acc
        else if c = "difficulty" then setColConst acc c (Value.str "medium")
        else if c = "time_estimate" then setColConst acc c (Value.nat 60)
        else acc) d = d := by
  intro l
  induction l with
  | nil => intro d _ _; rfl
  | cons c0 rest ih =>
    intro d hd ht
    have hstep : (if c0 ∈ d.cols then d
        else if c0 = "difficulty" then setColConst d c0 (Value.str "medium")
        else if c0 = "time_estimate" then setColConst d c0 (Value.nat 60)
        else d) = d := by
      by_cases h0 : c0 ∈ d.cols
      · rw [if_pos h0]
      · rw [if_neg h0]
        by_cases h0d : c0 = "difficulty"
        · subst h0d; exact absurd hd h0
        · rw [if_neg h0d]
          by_cases h0t : c0 = "time_estimate"
          · subst h0t; exact absurd ht h0
          · rw [if_neg h0t]
    simp only [List.foldl_cons, hstep]
    exact ih d hd ht

lemma finalColsFill_id (d : DataFrame) (hd : "difficulty" ∈ d.cols)
    (ht : "time_estimate" ∈ d.cols) : finalColsFill d = d :=
  foldl_fill_id finalCols d hd ht

lemma selectCols_back (d : DataFrame) (cs : List String) (i : Nat) (r' : Row)
    (h : (selectCols d cs).rows[i]? = some r') :
    ∃ r0, d.rows[i]? = some r0 ∧ r' = cs.map (fun c => (c, cellOf r0 c)) := by
  rw [selectCols_rows_getElem?] at h
  cases h0 : d.rows[i]? with
  | none => rw [h0] at h; cases h
  | some r0 =>
    rw [h0] at h
    simp only [Option.map_some', Option.some.injEq] at h
    exact ⟨r0, rfl, h.symm⟩

lemma enhStepTopic_of_mem (d : DataFrame) (h : "topic" ∈ d.cols) : enhStepTopic d = d := by
  unfold enhStepTopic
  rw [if_pos h]

lemma enhStepTag_of_mem (d : DataFrame) (h : "tag" ∈ d.cols) : enhStepTag d = d := by
  unfold enhStepTag
  rw [if_pos h]

lemma enhStepTopic_rows_length (d : DataFrame) :
    (enhStepTopic d).rows.length = d.rows.length := by
  unfold enhStepTopic
  by_cases h : "topic" ∈ d.cols
  · rw [if_pos h]
  · rw [if_neg h]
    exact setColConst_rows_length d _ _

lemma enhStepTag_rows_length (d : DataFrame) :
    (enhStepTag d).rows.length = d.rows.length := by
  unfold enhStepTag
  by_cases h : "tag" ∈ d.cols
  · rw [if_pos h]
  · rw [if_neg h]
    exact setColConst_rows_length d _ _

lemma enhStepChapterNo_rows_length (cn : Option String) (d : DataFrame) :
    (enhStepChapterNo cn d).rows.length = d.rows.length := by
  cases cn with
  | none => rfl
  | some v => exact setColConst_rows_length d _ _

lemma enhStepChapterTitle_rows_length (ct : Option String) (d : DataFrame) :
    (enhStepChapterTitle ct d).rows.length = d.rows.length := by
  cases ct with
  | none => rfl
  | some v => exact setColConst_rows_length d _ _

lemma enhStepTagMap_rows_length (tm : Option (List (String × String))) (d : DataFrame) :
    (enhStepTagMap tm d).rows.length = d.rows.length := by
  cases tm with
  | none => rfl
  | some m =>
    simp only [enhStepTagMap]
    by_cases h : "topic" ∈ d.cols
    · rw [if_pos h]
      exact setColByRow_rows_length d _ _
    · rw [if_neg h]

lemma enhStepDifficulty_rows_length (dl : Option (List (Nat × String))) (d : DataFrame) :
    (enhStepDifficulty dl d).rows.length = d.rows.length := by
  cases dl with
  | some m => exact setColByRow_rows_length d _ _
  | none =>
    simp only [enhStepDifficulty]
    by_cases h : "difficulty" ∈ d.cols
    · rw [if_pos h]
    · rw [if_neg h]
      exact setColConst_rows_length d _ _

lemma enhStepTime_rows_length (te : Option (List (Nat × Nat))) (d : DataFrame) :
    (enhStepTime te d).rows.length = d.rows.length := by
  cases te with
  | some m => exact setColByRow_rows_length d _ _
  | none =>
    simp only [enhStepTime]
    by_cases h : "time_estimate" ∈ d.cols
    · rw [if_pos h]
    · rw [if_neg h]
      exact setColConst_rows_length d _ _

/-- After the difficulty and time steps, the closing fill is the identity
and the row count survives the final selection. -/
lemma enhFinish_rows_length_of_mem (d : DataFrame) (hd : "difficulty" ∈ d.cols)
    (ht : "time_estimate" ∈ d.cols) : (enhFinish d).rows.length = d.rows.length := by
  unfold enhFinish
  rw [finalColsFill_id d hd ht]
  exact selectCols_rows_length d _

/-! ### Claims C8-C9: the enhancement step -/

/-- C8 (amended): when `enhance_quiz_dataframe` is given a
`difficultyLevels` (resp. `timeEstimates`) mapping, each output record's
`difficulty` (resp. `time_estimate`) equals the mapping's value at the
record's position when present and otherwise the default `"medium"` (resp.
`60`) — the record's existing value is overwritten, not used as a
fallback. -/
theorem c8_mapping_overrides (df : DataFrame) (tm : Option (List (String × String)))
    (cn ct : Option String) (i : Nat) :
    (∀ (dl : List (Nat × String)) (te : Option (List (Nat × Nat))) (r : Row),
      (enhance_quiz_dataframe df tm cn ct (some dl) te).rows[i]? = some r →
      rowGet r "difficulty" = some (Value.str ((lookupNat dl i).getD "medium"))) ∧
    (∀ (dl : Option (List (Nat × String))) (te : List (Nat × Nat)) (r : Row),
      (enhance_quiz_dataframe df tm cn ct dl (some te)).rows[i]? = some r →
      rowGet r "time_estimate" = some (Value.nat ((lookupNat te i).getD 60))) := by
  constructor
  · intro dl te r h
    unfold enhance_quiz_dataframe at h
    by_cases hemp : df.isEmptyDF
    · rw [if_pos hemp] at h
      simp at h
    · rw [if_neg hemp] at h
      set e5 := enhStepTagMap tm (enhStepChapterTitle ct
        (enhStepChapterNo cn (enhStepTag (enhStepTopic df)))) with he5
      set e6 := enhStepDifficulty (some dl) e5 with he6
      set e7 := enhStepTime te e6 with he7
      have hd6 : "difficulty" ∈ e6.cols := enhStepDifficulty_diff_mem (some dl) e5
      have hd7 : "difficulty" ∈ e7.cols := enhStepTime_cols_mem te e6 _ hd6
      have ht7 : "time_estimate" ∈ e7.cols := enhStepTime_time_mem te e6
      have hfin : enhFinish e7 = selectCols e7 (finalCols.filter (fun c => c ∈ e7.cols)) := by
        unfold enhFinish
        rw [finalColsFill_id e7 hd7 ht7]
      rw [hfin] at h
      obtain ⟨r7, h7, hrproj⟩ := selectCols_back e7 _ i r h
      obtain ⟨r6, h6, hpres7⟩ := enhStepTime_back te e6 i r7 h7
      have h6b : (setColByRow e5 "difficulty"
          (fun j _ => Value.str ((lookupNat dl j).getD "medium"))).rows[i]? = some r6 := h6
      obtain ⟨r5, h5, hr6⟩ := setColByRow_back e5 "difficulty" _ i r6 h6b
      have hval : rowGet r6 "difficulty" = some (Value.str ((lookupNat dl i).getD "medium")) := by
        rw [hr6]
        exact rowGet_setCell_same r5 "difficulty" _
      have hval7 : rowGet r7 "difficulty" =
          some (Value.str ((lookupNat dl i).getD "medium")) := by
        rw [hpres7 "difficulty" (by decide)]
        exact hval
      have hmem : "difficulty" ∈ finalCols.filter (fun c => c ∈ e7.cols) :=
        List.mem_filter.mpr ⟨by decide, by simpa using hd7⟩
      rw [hrproj, rowGet_projRow r7 _ "difficulty" hmem]
      simp [cellOf, hval7]
  · intro dl te r h
    unfold enhance_quiz_dataframe at h
    by_cases hemp : df.isEmptyDF
    · rw [if_pos hemp] at h
      simp at h
    · rw [if_neg hemp] at h
      set e5 := enhStepTagMap tm (enhStepChapterTitle ct
        (enhStepChapterNo cn (enhStepTag (enhStepTopic df)))) with he5
      set e6 := enhStepDifficulty dl e5 with he6
      set e7 := enhStepTime (some te) e6 with he7
      have hd6 : "difficulty" ∈ e6.cols := enhStepDifficulty_diff_mem dl e5
      have hd7 : "difficulty" ∈ e7.cols := enhStepTime_cols_mem (some te) e6 _ hd6
      have ht7 : "time_estimate" ∈ e7.cols := enhStepTime_time_mem (some te) e6
      have hfin : enhFinish e7 = selectCols e7 (finalCols.filter (fun c => c ∈ e7.cols)) := by
        unfold enhFinish
        rw [finalColsFill_id e7 hd7 ht7]
      rw [hfin] at h
      obtain ⟨r7, h7, hrproj⟩ := selectCols_back e7 _ i r h
      have h7b : (setColByRow e6 "time_estimate"
          (fun j _ => Value.nat ((lookupNat te j).getD 60))).rows[i]? = some r7 := h7
      obtain ⟨r6, h6, hr7⟩ := setColByRow_back e6 "time_estimate" _ i r7 h7b
      have hval7 : rowGet r7 "time_estimate" = some (Value.nat ((lookupNat te i).getD 60)) := by
        rw [hr7]
        exact rowGet_setCell_same r6 "time_estimate" _
      have hmem : "time_estimate" ∈ finalCols.filter (fun c => c ∈ e7.cols) :=
        List.mem_filter.mpr ⟨by decide, by simpa using ht7⟩
      rw [hrproj, rowGet_projRow r7 _ "time_estimate" hmem]
      simp [cellOf, hval7]

/-- A one-row frame that already carries `difficulty = "hard"` and
`time_estimate = 99`. -/
def c8Df : DataFrame :=
  ⟨["text", "difficulty", "time_estimate"],
   [[("text", Value.str "q"), ("difficulty", Value.str "hard"),
     ("time_estimate", Value.nat 99)]]⟩

/-- C8 counterexample: enhancing `c8Df` with mappings that are given but
have no entry for position 0 yields the defaults `"medium"`/`60`, not the
record's existing values `"hard"`/`99` that the claim's fallback chain
predicts. -/
theorem c8_counterexample :
    (enhance_quiz_dataframe c8Df none none none (some []) (some [])).rows =
      [[("text", Value.str "q"), ("topic", Value.str ""), ("tag", Value.str ""),
        ("difficulty", Value.str "medium"), ("time_estimate", Value.nat 60)]] ∧
    rowGet [("text", Value.str "q"), ("difficulty", Value.str "hard"),
      ("time_estimate", Value.nat 99)] "difficulty" = some (Value.str "hard") ∧
    ((Value.str "medium" == Value.str "hard") = false) ∧
    ((Value.nat 60 == Value.nat 99) = false) := by
  refine ⟨?_, ?_, ?_, ?_⟩ <;> decide

/-- The output row of the C8 witness run. -/
def c8OutRow : Row :=
  [("text", Value.str "q"), ("topic", Value.str ""), ("tag", Value.str ""),
   ("difficulty", Value.str "easy"), ("time_estimate", Value.nat 99)]

/-- Witness for C8 (amended) at a concrete frame and mapping. -/
theorem c8_mapping_overrides_witness :
    rowGet c8OutRow "difficulty" =
      some (Value.str ((lookupNat [(0, "easy")] 0).getD "medium")) :=
  (c8_mapping_overrides c8Df none none none 0).1 [(0, "easy")] none c8OutRow (by decide)

/-- Reading a selected column of a projected row as a cell. -/
lemma cellOf_projRow (r : Row) (cs : List String) (c : String) (h : c ∈ cs) :
    cellOf (cs.map (fun c' => (c', cellOf r c'))) c = cellOf r c := by
  rw [show cellOf (cs.map (fun c' => (c', cellOf r c'))) c =
      (rowGet (cs.map (fun c' => (c', cellOf r c'))) c).getD Value.na from rfl,
    rowGet_projRow r cs c h, Option.getD_some]

/-- C9 (amended): for every input frame with at least one column,
enhancement with a `tagMapping` preserves the row count and the row order,
and leaves a row's `tag` cell unchanged whenever the mapping has no entry
for that row's topic (the tag is never cleared); a degenerate frame with
rows but no columns is treated as empty by the pandas `df.empty` test and
comes back with zero rows. -/
theorem c9_tag_preserved (df : DataFrame) (tm : List (String × String)) (cn ct : Option String)
    (dl : Option (List (Nat × String))) (te : Option (List (Nat × Nat)))
    (hcols : df.cols ≠ []) :
    (enhance_quiz_dataframe df (some tm) cn ct dl te).rows.length = df.rows.length ∧
    (∀ (i : Nat) (r : Row), df.rows[i]? = some r → "topic" ∈ df.cols → "tag" ∈ df.cols →
      (∀ t, rowGet r "topic" = some (Value.str t) → lookupStr tm t = none) →
      ∃ r', (enhance_quiz_dataframe df (some tm) cn ct dl te).rows[i]? = some r' ∧
        cellOf r' "tag" = cellOf r "tag") := by
  have hcolsb : df.cols.isEmpty = false := by
    cases hc : df.cols with
    | nil => exact absurd hc hcols
    | cons a as => rfl
  have hlen : (enhance_quiz_dataframe df (some tm) cn ct dl te).rows.length =
      df.rows.length := by
    unfold enhance_quiz_dataframe
    by_cases hemp : df.isEmptyDF
    · rw [if_pos hemp]
      unfold DataFrame.isEmptyDF at hemp
      rw [hcolsb, Bool.or_false] at hemp
      have : df.rows = [] := List.isEmpty_iff.mp hemp
      rw [this]
    · rw [if_neg hemp]
      set e4 := enhStepChapterTitle ct (enhStepChapterNo cn (enhStepTag (enhStepTopic df)))
        with he4
      set e5 := enhStepTagMap (some tm) e4 with he5
      set e6 := enhStepDifficulty dl e5 with he6
      set e7 := enhStepTime te e6 with he7
      have hd7 : "difficulty" ∈ e7.cols :=
        enhStepTime_cols_mem te e6 _ (enhStepDifficulty_diff_mem dl e5)
      have ht7 : "time_estimate" ∈ e7.cols := enhStepTime_time_mem te e6
      rw [enhFinish_rows_length_of_mem e7 hd7 ht7, he7, enhStepTime_rows_length, he6,
        enhStepDifficulty_rows_length, he5, enhStepTagMap_rows_length, he4,
        enhStepChapterTitle_rows_length, enhStepChapterNo_rows_length,
        enhStepTag_rows_length, enhStepTopic_rows_length]
  refine ⟨hlen, ?_⟩
  intro i r hr htopic htag hmap
  have hi : i < df.rows.length := (List.getElem?_eq_some.mp hr).1
  have hi' : i < (enhance_quiz_dataframe df (some tm) cn ct dl te).rows.length := by
    rw [hlen]
    exact hi
  obtain ⟨r', hr'⟩ : ∃ r',
      (enhance_quiz_dataframe df (some tm) cn ct dl te).rows[i]? = some r' :=
    ⟨_, List.getElem?_eq_getElem hi'⟩
  refine ⟨r', hr', ?_⟩
  have hempf : ¬ df.isEmptyDF := by
    unfold DataFrame.isEmptyDF
    rw [hcolsb, Bool.or_false]
    intro hcon
    have : df.rows = [] := List.isEmpty_iff.mp hcon
    rw [this] at hi
    simp at hi
  unfold enhance_quiz_dataframe at hr'
  rw [if_neg hempf] at hr'
  rw [enhStepTopic_of_mem df htopic, enhStepTag_of_mem df htag] at hr'
  set e4 := enhStepChapterTitle ct (enhStepChapterNo cn df) with he4
  have htopic4 : "topic" ∈ e4.cols :=
    enhStepChapterTitle_cols_mem ct _ _ (enhStepChapterNo_cols_mem cn df _ htopic)
  have htag4 : "tag" ∈ e4.cols :=
    enhStepChapterTitle_cols_mem ct _ _ (enhStepChapterNo_cols_mem cn df _ htag)
  have he5eq : enhStepTagMap (some tm) e4 =
      setColByRow e4 "tag" (fun _ rr => mappedTagOrOriginal tm rr) := by
    simp only [enhStepTagMap]
    rw [if_pos htopic4]
  rw [he5eq] at hr'
  set e5 := setColByRow e4 "tag" (fun _ rr => mappedTagOrOriginal tm rr) with he5
  set e6 := enhStepDifficulty dl e5 with he6
  set e7 := enhStepTime te e6 with he7
  have htag5 : "tag" ∈ e5.cols := setColByRow_cols_self e4 _ _
  have htag6 : "tag" ∈ e6.cols := enhStepDifficulty_cols_mem dl e5 _ htag5
  have htag7 : "tag" ∈ e7.cols := enhStepTime_cols_mem te e6 _ htag6
  have hd7 : "difficulty" ∈ e7.cols :=
    enhStepTime_cols_mem te e6 _ (enhStepDifficulty_diff_mem dl e5)
  have ht7 : "time_estimate" ∈ e7.cols := enhStepTime_time_mem te e6
  have hfin : enhFinish e7 = selectCols e7 (finalCols.filter (fun c => c ∈ e7.cols)) := by
    unfold enhFinish
    rw [finalColsFill_id e7 hd7 ht7]
  rw [hfin] at hr'
  obtain ⟨r7, h7, hproj⟩ := selectCols_back e7 _ i r' hr'
  obtain ⟨r6, h6, hp7⟩ := enhStepTime_back te e6 i r7 h7
  obtain ⟨r5, h5, hp6⟩ := enhStepDifficulty_back dl e5 i r6 h6
  obtain ⟨r4, h4, hr5⟩ := setColByRow_back e4 "tag" _ i r5 h5
  obtain ⟨r3, h3, hp4⟩ := enhStepChapterTitle_back ct _ i r4 h4
  obtain ⟨r0, h0, hp3⟩ := enhStepChapterNo_back cn df i r3 h3
  have hr0 : r0 = r := by
    rw [hr] at h0
    exact (Option.some.injEq _ _).mp h0.symm
  subst hr0
  have htopicval : rowGet r4 "topic" = rowGet r0 "topic" := by
    rw [hp4 "topic" (by decide), hp3 "topic" (by decide)]
  have htagval : rowGet r4 "tag" = rowGet r0 "tag" := by
    rw [hp4 "tag" (by decide), hp3 "tag" (by decide)]
  have hmapval : mappedTagOrOriginal tm r4 = cellOf r4 "tag" := by
    unfold mappedTagOrOriginal
    rw [htopicval]
    cases hv : rowGet r0 "topic" with
    | none => rfl
    | some v =>
      cases v with
      | str t =>
        simp [hmap t hv]
      | list xs => rfl
      | nat n => rfl
      | na => rfl
  have hval5 : rowGet r5 "tag" = some (cellOf r4 "tag") := by
    rw [hr5, rowGet_setCell_same, hmapval]
  have hval7 : rowGet r7 "tag" = some (cellOf r4 "tag") := by
    rw [hp7 "tag" (by decide), hp6 "tag" (by decide)]
    exact hval5
  have hmem : "tag" ∈ finalCols.filter (fun c => c ∈ e7.cols) :=
    List.mem_filter.mpr ⟨by decide, by simpa using htag7⟩
  have hcell4 : cellOf r4 "tag" = cellOf r0 "tag" := by
    unfold cellOf
    rw [htagval]
  rw [hproj, cellOf_projRow r7 _ "tag" hmem,
    show cellOf r7 "tag" = (rowGet r7 "tag").getD Value.na from rfl,
    hval7, Option.getD_some, hcell4]

/-- A degenerate pandas frame: three rows, zero columns (`pd.DataFrame(index=[0,1,2])`). -/
def c9DegenerateDf : DataFrame := ⟨[], [[], [], []]⟩

/-- C9 counterexample: a frame with three rows but no columns is `empty` for
pandas (`df.empty` is true when any axis has length zero), so enhancement
returns the zero-row schema frame — the row count changes from 3 to 0,
refuting "enhancement never changes row count" as stated for every input. -/
theorem c9_counterexample :
    (enhance_quiz_dataframe c9DegenerateDf (some []) none none none none).rows.length = 0 ∧
    c9DegenerateDf.rows.length = 3 ∧ ((0 : Nat) == 3) = false := by
  refine ⟨?_, ?_, ?_⟩ <;> decide

/-- A one-row frame with `topic`/`tag` columns for the C9 witness. -/
def c9Df : DataFrame :=
  ⟨["topic", "tag"], [[("topic", Value.str "A"), ("tag", Value.str "keep")]]⟩

/-- Witness for C9 (amended) at a concrete frame. -/
theorem c9_tag_preserved_witness :
    (enhance_quiz_dataframe c9Df (some [("B", "x")]) none none none none).rows.length =
      c9Df.rows.length :=
  (c9_tag_preserved c9Df [("B", "x")] none none none none (by decide)).1

/-! ### Claims C5-C7, C10: fatal path, empty input, case handling, schema -/

/-- C10: whenever the structural parse succeeds — a `QUIZ_BANK` root is
resolved — the returned DataFrame exposes exactly the seven columns `text`,
`options`, `answerIndex`, `topic`, `tag`, `chapter_no`, `CHAPTER_TITLE`, in
that order, even when zero items were accepted; the fill values used for a
missing column are the per-row empty list for `options`, `pd.NA` for
`answerIndex` and the empty string for the text columns. -/
theorem c10_schema_complete (pr : Option Element) (b : Bool)
    (chapterNo chapterTitle : Option String) (root : Element)
    (hroot : resolveRoot pr = some root) :
    (parse_quiz_xml_to_dataframe pr b chapterNo chapterTitle).1.cols = expectedCols ∧
    defaultFor "options" = Value.list [] ∧ defaultFor "answerIndex" = Value.na ∧
    defaultFor "text" = Value.str "" ∧ defaultFor "topic" = Value.str "" := by
  refine ⟨?_, rfl, rfl, rfl, rfl⟩
  unfold parse_quiz_xml_to_dataframe
  rw [hroot]
  show (assembleDF
    (processItems (mainTopicOf root) chapterNo chapterTitle 0 (quizItemsOf root)).1).cols =
      expectedCols
  exact assembleDF_cols _

/-- An item-free `QUIZ_BANK` root for the C10 witness. -/
def c10Bank : Element := .mk "QUIZ_BANK" [] [] "" []

/-- Witness for C10 at a concrete item-free document. -/
theorem c10_schema_complete_witness :
    (parse_quiz_xml_to_dataframe (some c10Bank) true none none).1.cols = expectedCols :=
  (c10_schema_complete (some c10Bank) true none none c10Bank rfl).1

/-- C5 (amended): on the fatal path — no usable root, or a root that neither
is nor contains `QUIZ_BANK` — `parse_quiz_xml_to_dataframe` returns the bare
`pd.DataFrame()` with NO columns together with only the fatal-parse
diagnostic, and no exception propagates (the embedded function is total);
the seven-column schema is applied only after a successful root
resolution. -/
theorem c5_fatal_bare_frame (pr : Option Element) (b : Bool)
    (chapterNo chapterTitle : Option String) (h : resolveRoot pr = none) :
    parse_quiz_xml_to_dataframe pr b chapterNo chapterTitle =
      (DataFrame.mk [] [], [Diag.fatalParse]) := by
  unfold parse_quiz_xml_to_dataframe
  rw [h]

/-- A parsed document whose root is `FOO` and which contains no `QUIZ_BANK`
element anywhere. -/
def c5FooRoot : Element := .mk "FOO" [] [] "" []

/-- C5 counterexample: for the concrete fatal input `<FOO/>` (root is not
`QUIZ_BANK` and contains none) the returned frame has zero columns, not the
seven-column schema the claim promises. -/
theorem c5_fatal_counterexample :
    (parse_quiz_xml_to_dataframe (some c5FooRoot) true none none).1.cols = [] ∧
    expectedCols.length = 7 ∧ (([] : List String) == expectedCols) = false := by
  have hne : ¬ (myToUpper (Element.tag c5FooRoot) = "QUIZ_BANK") := by decide
  have hd : descendants c5FooRoot = [] := by
    simp [c5FooRoot, descendants, descList]
  have hres : resolveRoot (some c5FooRoot) = none := by
    rw [show resolveRoot (some c5FooRoot) =
        (if myToUpper c5FooRoot.tag = "QUIZ_BANK" then some c5FooRoot
         else (descendants c5FooRoot).find? (fun e => e.tag == "QUIZ_BANK")) from rfl,
      if_neg hne, hd]
    rfl
  refine ⟨?_, by decide, by decide⟩
  unfold parse_quiz_xml_to_dataframe
  rw [hres]

/-- Witness for C5 (amended) at the concrete fatal outcome of a raising
parse. -/
theorem c5_fatal_bare_frame_witness :
    parse_quiz_xml_to_dataframe none true none none =
      (DataFrame.mk [] [], [Diag.fatalParse]) :=
  c5_fatal_bare_frame none true none none rfl

/-- A parsed `QUIZ_BANK` document containing no `QUIZ_ITEM` elements. -/
def c6EmptyBank : Element := .mk "QUIZ_BANK" [] [] "" []

/-- C6: for empty input the `lxml` stage raises `XMLSyntaxError: Document is
empty` even in recovery mode, so the call takes the fatal path: the only
diagnostic is the fatal-parse message — the dedicated empty-input
diagnostic (`Warning: Input XML content was empty.`) is dead code and no
skipped count is reported — whereas a parsed document with no items gets
the distinct no-items diagnostic together with the zero-parsed and
zero-skipped summaries. -/
theorem c6_empty_input_eval :
    parse_quiz_xml_to_dataframe none false none none =
      (DataFrame.mk [] [], [Diag.fatalParse]) ∧
    ((parse_quiz_xml_to_dataframe none false none none).2.contains Diag.emptyInput) = false ∧
    ((parse_quiz_xml_to_dataframe none false none none).2.contains
      (Diag.skippedSummary 0)) = false ∧
    (parse_quiz_xml_to_dataframe (some c6EmptyBank) true none none).2 =
      [Diag.noItemsFound, Diag.parsedSummary 0, Diag.skippedSummary 0] := by
  have hd : descendants c6EmptyBank = [] := by
    simp [c6EmptyBank, descendants, descList]
  have hitems : quizItemsOf c6EmptyBank = [] := by
    unfold quizItemsOf
    rw [hd]
    rfl
  have hres : resolveRoot (some c6EmptyBank) = some c6EmptyBank := rfl
  refine ⟨rfl, rfl, rfl, ?_⟩
  unfold parse_quiz_xml_to_dataframe
  rw [hres]
  simp only [hitems]
  rfl

/-- An item whose option fields are `Option1..Option5`: mixed-case prefix,
matching neither `starts-with(..., "OPTION")` nor
`starts-with(..., "option")`. -/
def c7MixedItem : Element :=
  .mk "QUIZ_ITEM" [] [] ""
    [.mk "QUESTION" [] ["Case?"] "Case?" [],
     .mk "Option1" [("correct", "True")] ["a"] "a" [],
     .mk "Option2" [("correct", "False")] ["b"] "b" [],
     .mk "Option3" [("correct", "False")] ["c"] "c" [],
     .mk "Option4" [("correct", "False")] ["d"] "d" [],
     .mk "Option5" [("correct", "False")] ["e"] "e" []]

/-- The same item with upper-case option names, identical otherwise. -/
def c7UpperItem : Element :=
  .mk "QUIZ_ITEM" [] [] ""
    [.mk "QUESTION" [] ["Case?"] "Case?" [],
     .mk "OPTION1" [("correct", "True")] ["a"] "a" [],
     .mk "OPTION2" [("correct", "False")] ["b"] "b" [],
     .mk "OPTION3" [("correct", "False")] ["c"] "c" [],
     .mk "OPTION4" [("correct", "False")] ["d"] "d" [],
     .mk "OPTION5" [("correct", "False")] ["e"] "e" []]

/-- The record the upper-case variant is accepted as. -/
def c7UpperRec : QuizRecord :=
  { text := "Case?", options := ["a", "b", "c", "d", "e"], answerIndex := 1,
    topic := "", tag := "", chapter_no := "", CHAPTER_TITLE := "" }

/-- C7: two items identical up to the letter case of their option-field
names are NOT treated alike — the `Option1..Option5` item is rejected with
`Expected 5 options but found 0` (the count XPath only matches the exact
prefixes `OPTION`/`option`), while the `OPTION1..OPTION5` item is accepted;
the capitalised `correct` attribute values (`True`/`False`) are, as the
claim says, compared case-insensitively and produce no warnings. -/
theorem c7_mixed_case_rejected_eval :
    processItem "" none none 0 c7MixedItem =
      .rejected [Diag.optionCount 0 "Case?"] ∧
    processItem "" none none 0 c7UpperItem = .accepted c7UpperRec [] ∧
    (allOptionTags c7MixedItem).length = 0 ∧
    (allOptionTags c7UpperItem).length = 5 := by
  refine ⟨?_, ?_, ?_, ?_⟩ <;> decide
